import Mathlib

/-!
Verification development for the admin-website remote operation orchestrator.

The definitions below are shallow embeddings of the TypeScript source:
* `ssh.ts` — the command allow-list (`ALLOWED_COMMANDS`, `isCommandAllowed`),
  modelled with an executable regular-expression engine (Brzozowski
  derivatives) whose pattern syntax mirrors the JavaScript regexes verbatim;
* `backend/server.ts` — the HTTP handlers for restart, update, version
  catalog and backup downloads, modelled as pure functions from the request
  data and oracles for the external effects (SSH execution, filesystem) to
  the produced response plus a trace of the effects performed;
* `frontend/App.tsx` — the orchestration layer (`updateServerVersion`,
  `restartServer`, `pollServerLogsForStartup`), modelled as pure functions
  producing event traces.
-/

/- ## JavaScript string primitives used by the source -/

/-- Does `sub` occur as a contiguous sublist of `l`? -/
def containsSub (l sub : List Char) : Bool :=
  match l with
  | [] => sub.isEmpty
  | _ :: t => sub.isPrefixOf l || containsSub t sub

/-- JS `String.prototype.includes`: substring test. -/
def jsIncludes (s sub : String) : Bool :=
  containsSub s.toList sub.toList

/-- Splits `l` at the first occurrence of `pat`: the part before the
occurrence and the part after it (the occurrence removed), or `none` when
`pat` does not occur. -/
def findFirstSplit (pat : List Char) : List Char → Option (List Char × List Char)
  | [] => none
  | c :: rest =>
    if pat.isPrefixOf (c :: rest) then some ([], (c :: rest).drop pat.length)
    else
      match findFirstSplit pat rest with
      | some (b, a) => some (c :: b, a)
      | none => none

/-- Iterated splitting at a non-empty separator, keeping empty fragments.
The fuel argument only bounds the recursion; each found occurrence of a
non-empty separator strictly shortens the remainder, so fuel
`l.length + 1` is never exhausted. -/
def splitChars (sep : List Char) : Nat → List Char → List (List Char)
  | 0, l => [l]
  | fuel + 1, l =>
    match findFirstSplit sep l with
    | none => [l]
    | some (b, a) => b :: splitChars sep fuel a

/-- JS `String.prototype.split` with a non-empty separator string (the
source only splits on `"\n"` and `"."`); keeps empty fragments, as JS does. -/
def jsSplit (s sep : String) : List String :=
  if sep.toList.isEmpty then [s]
  else (splitChars sep.toList (s.toList.length + 1) s.toList).map (fun l => ⟨l⟩)

/-- JS `String.prototype.startsWith`. -/
def jsStartsWith (s p : String) : Bool :=
  p.toList.isPrefixOf s.toList

/-- JS `String.prototype.replace(pat, "")` with a plain-string pattern:
removes the first occurrence of `pat`, if any. -/
def jsReplaceFirst (s pat : String) : String :=
  match findFirstSplit pat.toList s.toList with
  | some (b, a) => ⟨b ++ a⟩
  | none => s

/-- Value of a nonempty decimal digit string. -/
def digitsVal (l : List Char) : Nat :=
  l.foldl (fun acc c => acc * 10 + (c.toNat - '0'.toNat)) 0

/-- JS whitespace recognized by `parseInt`. -/
def isJsWs (c : Char) : Bool :=
  c = ' ' || c = '\t' || c = '\n' || c = '\r' || c = '\x0b' || c = '\x0c'

/-- JS `parseInt` (radix 10), integer fragment: skips leading whitespace,
reads an optional sign and then the longest leading run of decimal digits;
`none` models `NaN` (no digits). `parseInt` ignores trailing garbage. -/
def parseIntJS (s : String) : Option Int :=
  let l := s.toList.dropWhile isJsWs
  let sign : Int := if l.head? = some '-' then -1 else 1
  let l' := if l.head? = some '-' || l.head? = some '+' then l.tail else l
  let ds := l'.takeWhile (·.isDigit)
  if ds.isEmpty then none else some (sign * digitsVal ds)

/-- JS `Number(string)`, integer fragment: the claims only apply it to
decimal digit strings (semantic version components). The empty string
converts to `0`; a signed or unsigned digit string converts to its value;
every other shape is conservatively mapped to `none` (`NaN`). Unlike
`parseInt`, `Number` rejects trailing garbage. -/
def jsNumber (s : String) : Option Int :=
  let l := s.toList
  if l.isEmpty then some 0
  else
    let sign : Int := if l.head? = some '-' then -1 else 1
    let ds := if l.head? = some '-' || l.head? = some '+' then l.tail else l
    if ds.isEmpty = false && ds.all (·.isDigit) then some (sign * digitsVal ds)
    else none

/- ## Regular-expression engine

JavaScript regexes of the allow-list use only: literal characters, the
classes `\w`, `\d`, `\s`, `.`, bracket classes (unions of those and
literals), concatenation, alternation `|`, and the quantifiers `*`, `+`,
`?`. All patterns are anchored `^...$`, so `pattern.test(command)` is
whole-string matching, embedded here as `RE.test`. Matching is decided with
Brzozowski derivatives. -/

/-- One alternative inside a character class: a literal character or one of
the JS escape classes. -/
inductive CCItem where
  | lit (c : Char)
  | word   -- \w = [A-Za-z0-9_]
  | digit  -- \d = [0-9]
  | space  -- \s (whitespace)
  | dot    -- . (any char except line terminators)
deriving DecidableEq

/-- Does character `c` belong to the class item? -/
def CCItem.val : CCItem → Char → Bool
  | .lit c', c => c = c'
  | .word, c => c.isAlphanum || c = '_'
  | .digit, c => c.isDigit
  | .space, c => c = ' ' || c = '\t' || c = '\n' || c = '\r' || c = '\x0b' || c = '\x0c'
  | .dot, c => !(c = '\n' || c = '\r')

/-- Regular expressions (anchored matching). -/
inductive RE where
  | emp
  | eps
  | cls (items : List CCItem)
  | cat (r s : RE)
  | alt (r s : RE)
  | star (r : RE)
deriving DecidableEq

namespace RE

/-- `r+` -/
def plus (r : RE) : RE := .cat r (.star r)

/-- `r?` -/
def opt (r : RE) : RE := .alt r .eps

/-- A single literal character. -/
def ch (c : Char) : RE := .cls [.lit c]

/-- A literal string (concatenation of its characters). -/
def str (s : String) : RE :=
  s.toList.foldr (fun c r => .cat (ch c) r) .eps

/-- Does the regex accept the empty string? -/
def nullable : RE → Bool
  | .emp => false
  | .eps => true
  | .cls _ => false
  | .cat r s => nullable r && nullable s
  | .alt r s => nullable r || nullable s
  | .star _ => true

/-- Smart concatenation (language-preserving simplification). -/
def scat : RE → RE → RE
  | .emp, _ => .emp
  | _, .emp => .emp
  | .eps, s => s
  | r, .eps => r
  | r, s => .cat r s

/-- Smart alternation (language-preserving simplification). -/
def salt : RE → RE → RE
  | .emp, s => s
  | r, .emp => r
  | r, s => .alt r s

/-- Brzozowski derivative of `r` with respect to character `c`. -/
def deriv : RE → Char → RE
  | .emp, _ => .emp
  | .eps, _ => .emp
  | .cls items, c => if items.any (·.val c) then .eps else .emp
  | .cat r s, c =>
      if nullable r then salt (scat (deriv r c) s) (deriv s c)
      else scat (deriv r c) s
  | .alt r s, c => salt (deriv r c) (deriv s c)
  | .star r, c => scat (deriv r c) (.star r)

/-- Anchored match of a character list. -/
def matchList (r : RE) : List Char → Bool
  | [] => nullable r
  | c :: cs => matchList (deriv r c) cs

/-- `pattern.test(command)` for an anchored `^...$` JS pattern. -/
def test (r : RE) (s : String) : Bool :=
  matchList r s.toList

end RE

/- ## The allow-list of `ssh.ts`

Each entry transcribes one JS regex from `ALLOWED_COMMANDS`. -/

/-- `[\w-]` -/
def wdash : RE := .cls [.word, .lit '-']

/-- `[\w-@]` (inside a class, `-` after `\w` is a literal). -/
def wdashAt : RE := .cls [.word, .lit '-', .lit '@']

/-- `[\d.]` -/
def digitDotCls : RE := .cls [.digit, .lit '.']

/-- `[\w.-]` -/
def wdotdash : RE := .cls [.word, .lit '.', .lit '-']

/-- `[\w\s.-]` -/
def wsdotdash : RE := .cls [.word, .space, .lit '.', .lit '-']

/-- `(?:true|false)` -/
def trueFalse : RE := .alt (RE.str "true") (RE.str "false")

/-- One branch of the starred option group of `wb c update`:
`--label "[\w\s.-]+" |--french (?:true|false) |...|--instance-dir [\w-]+ `
(each branch ends with a space, as in the source). -/
def updateOption : RE :=
  .alt (.cat (RE.str "--label \"") (.cat (RE.plus wsdotdash) (RE.str "\" ")))
  (.alt (.cat (RE.str "--french ") (.cat trueFalse (RE.ch ' ')))
  (.alt (.cat (RE.str "--ethiopian ") (.cat trueFalse (RE.ch ' ')))
  (.alt (.cat (RE.str "--open-access ") (.cat trueFalse (RE.ch ' ')))
  (.alt (.cat (RE.str "--server ") (.cat (RE.plus digitDotCls) (RE.ch ' ')))
  (.alt (.cat (RE.str "--admin ") (.cat (RE.plus digitDotCls) (RE.ch ' ')))
        (.cat (RE.str "--instance-dir ") (.cat (RE.plus wdash) (RE.ch ' '))))))))

/-- First target token of the docker lifecycle commands:
`(?:[\w-]+|all|@[\w-]+|server=[\d.]+|admin)` -/
def dockerTargetFirst : RE :=
  .alt (RE.plus wdash)
  (.alt (RE.str "all")
  (.alt (.cat (RE.ch '@') (RE.plus wdash))
  (.alt (.cat (RE.str "server=") (RE.plus digitDotCls))
        (RE.str "admin"))))

/-- Subsequent target tokens: `(?: (?:[\w-]+|@[\w-]+|server=[\d.]+))*` -/
def dockerTargetRest : RE :=
  .star (.cat (RE.ch ' ')
    (.alt (RE.plus wdash)
    (.alt (.cat (RE.ch '@') (RE.plus wdash))
          (.cat (RE.str "server=") (RE.plus digitDotCls)))))

/-- A docker lifecycle pattern `^wb <verb> <targets>$`. -/
def dockerLifecycle (verb : String) : RE :=
  .cat (RE.str ("wb " ++ verb ++ " ")) (.cat dockerTargetFirst dockerTargetRest)

/-- The `ALLOWED_COMMANDS` table of `ssh.ts`, one regex per entry,
in source order. -/
def ALLOWED_COMMANDS : List RE :=
  [ -- CONFIG COMMANDS - servers.json management
    RE.str "wb c list",
    RE.str "wb c list --json",
    .cat (RE.str "wb c list --tag ") (RE.plus wdash),
    .cat (RE.str "wb c show ") (RE.plus wdash),
    .cat (RE.str "wb c show ") (.cat (RE.plus wdash) (RE.str " --json")),
    .cat (RE.str "wb c add ") (RE.plus wdash),
    .cat (RE.str "wb c update ") (.cat (RE.plus wdashAt) (.cat (RE.ch ' ') (.star updateOption))),
    .cat (RE.str "wb c remove ") (RE.plus wdash),
    .cat (RE.str "wb c tag ") (RE.plus (.cat (RE.plus wdash) (RE.opt (RE.ch ' ')))),
    .cat (RE.str "wb c untag ") (RE.plus (.cat (RE.plus wdash) (RE.opt (RE.ch ' ')))),
    RE.str "wb c validate",
    RE.str "wb c backup",
    .cat (RE.str "wb c restore ") (RE.plus wdotdash),
    -- INITIALIZATION COMMANDS - server infrastructure
    .cat (RE.str "wb init-dirs ") (RE.plus wdash),
    .cat (RE.str "wb init-nginx ") (RE.plus wdash),
    .cat (RE.str "wb init-ssl ") (RE.plus wdash),
    .cat (RE.str "wb remove-dirs ") (RE.plus wdash),
    .cat (RE.str "wb remove-nginx ") (RE.plus wdash),
    .cat (RE.str "wb remove-ssl ") (RE.plus wdash),
    RE.str "wb list-nginx",
    RE.str "wb list-ssl",
    -- DOCKER COMMANDS - container management
    dockerLifecycle "run",
    dockerLifecycle "start",
    dockerLifecycle "stop",
    dockerLifecycle "restart",
    RE.str "wb pull",
    RE.str "wb prune",
    -- OTHER
    RE.str "wb help",
    RE.str "docker ps",
    .cat (RE.str "docker ps --format ") (RE.plus (.cls [.dot])) ]

/-- `isCommandAllowed` of `ssh.ts`:
`ALLOWED_COMMANDS.some((pattern) => pattern.test(command))`. -/
def isCommandAllowed (command : String) : Bool :=
  ALLOWED_COMMANDS.any (fun pattern => pattern.test command)

/- ## Backend handlers (`backend/server.ts`)

Each HTTP handler is modelled as a pure function from the request data and
oracles for the external effects (SSH execution, filesystem, child
processes) to the response produced, paired with the trace of external
effects actually performed. Authentication (`requireAdmin`) is an external
collaborator and is not modelled: the handlers below describe the behavior
after a successful admin check. -/

/-- `CommandResult` of `ssh.ts`. -/
structure CommandResult where
  success : Bool
  stdout : String
  stderr : String
  code : Int
deriving DecidableEq

/-- Outcome of an `executeCommand` call: either a result, or a thrown
transport error (connection/spawn failure). -/
inductive ExecOutcome where
  | ok (r : CommandResult)
  | thrown (e : String)
deriving DecidableEq

/-- An inventory record, as consumed by `getServerInfo` (only the `id`
field is inspected by the handlers). -/
structure ServerInfo where
  id : String
deriving DecidableEq

/-- `getServerInfo` of `server.ts`: `servers.find(s => s.id === serverId)`
over the fetched inventory. -/
def getServerInfo (servers : List ServerInfo) (serverId : String) : Option ServerInfo :=
  servers.find? (fun s => s.id == serverId)

/-- Responses of the restart/update handlers. -/
inductive Response where
  /-- 200 with `{success, message: stdout, error: stderr}` -/
  | ok (success : Bool) (message error : String)
  /-- 404 with `{error: "Server not found"}` -/
  | notFound
  /-- 500 with `{error: String(error)}` -/
  | serverError (e : String)
deriving DecidableEq

/-- The `POST /api/servers/:id/restart` handler. Returns the response and
the list of commands passed to `executeCommand`. The allow-list check
present in the source is commented out there, and is therefore absent
here: the rendered command is dispatched without consulting
`isCommandAllowed`. -/
def restartHandler (servers : List ServerInfo) (serverId : String)
    (exec : String → ExecOutcome) : Response × List String :=
  match getServerInfo servers serverId with
  | none => (.notFound, [])
  | some server =>
    if server.id = "" then (.notFound, [])
    else
      let command := "wb restart " ++ serverId
      match exec command with
      | .ok r => (.ok r.success r.stdout r.stderr, [command])
      | .thrown e => (.serverError e, [command])

/-- The `POST /api/servers/:id/update` handler (`version` comes from the
request body). As in the source, the commented-out allow-list check is
absent: the rendered command is dispatched unconditionally. -/
def updateHandler (servers : List ServerInfo) (serverId version : String)
    (exec : String → ExecOutcome) : Response × List String :=
  match getServerInfo servers serverId with
  | none => (.notFound, [])
  | some server =>
    if server.id = "" then (.notFound, [])
    else
      let command := "wb c update " ++ serverId ++ " --server " ++ version
      match exec command with
      | .ok r => (.ok r.success r.stdout r.stderr, [command])
      | .thrown e => (.serverError e, [command])

/- ### `GET /api/versions` -/

/-- Tag extraction of the versions handler:
`stdout.split('\n').filter(startsWith 'wb-fastr-server-v').map(strip)`. -/
def parseVersionTags (stdout : String) : List String :=
  ((jsSplit stdout "\n").filter (fun tag => jsStartsWith tag "wb-fastr-server-v")).map
    (fun tag => jsReplaceFirst tag "wb-fastr-server-v")

/-- The `highestMinor` accumulation loop: starts at `-1`; for each version
with at least two dot-separated parts, compares `parseInt(parts[1])`
against the accumulator (`NaN > acc` is false, so a `NaN` minor never
updates it). -/
def highestMinor (tags : List String) : Int :=
  tags.foldl (fun acc version =>
    let parts := jsSplit version "."
    if parts.length ≥ 2 then
      match parseIntJS (parts.getD 1 "") with
      | some minor => if minor > acc then minor else acc
      | none => acc
    else acc) (-1)

/-- `version.split('.').map(Number)`; `none` components model `NaN`. -/
def versionNums (s : String) : List (Option Int) :=
  (jsSplit s ".").map jsNumber

/-- JS strict inequality `bParts[i] !== aParts[i]` where the outer `none`
models an out-of-range index (`undefined`) and the inner `none` models
`NaN`: `undefined !== undefined` is false, `NaN !== x` is true. -/
def jsStrictNe : Option (Option Int) → Option (Option Int) → Bool
  | some (some x), some (some y) => x ≠ y
  | none, none => false
  | _, _ => true

/-- JS subtraction `x - y` as consumed by `Array.prototype.sort`: a `NaN`
or `undefined` operand yields `NaN`, which `SortCompare` maps to `+0`. -/
def jsDiff : Option (Option Int) → Option (Option Int) → Int
  | some (some x), some (some y) => x - y
  | _, _ => 0

/-- The sort comparator of the versions handler: at the first index
`i < 3` where `bParts[i] !== aParts[i]`, return `bParts[i] - aParts[i]`,
else `0` (descending, newest first). -/
def versionCmp (a b : String) : Int :=
  let ap := versionNums a
  let bp := versionNums b
  let step := fun (i : Nat) =>
    if jsStrictNe (bp.get? i) (ap.get? i) then some (jsDiff (bp.get? i) (ap.get? i)) else none
  ((step 0).orElse (fun _ => (step 1).orElse (fun _ => step 2))).getD 0

/-- The full tag pipeline of the versions handler. `Array.prototype.sort`
with a consistent comparator produces a sorted permutation of its input;
it is modelled by `List.insertionSort` with the relation
`versionCmp a b ≤ 0` ("a may come before b"). -/
def versionsFromStdout (stdout : String) : List String :=
  let tags := parseVersionTags stdout
  let hm := highestMinor tags
  let filteredTags := tags.filter (fun version =>
    let parts := jsSplit version "."
    decide (parts.length ≥ 2) &&
      (match parseIntJS (parts.getD 1 "") with
       | some m => m == hm
       | none => false))
  filteredTags.insertionSort (fun a b => versionCmp a b ≤ 0)

/-- Responses of the `GET /api/versions` handler. -/
inductive VersionsResponse where
  /-- 200 with `{versions}` -/
  | ok (versions : List String)
  /-- 500 with `{error}` -/
  | err (e : String)
deriving DecidableEq

/-- The `GET /api/versions` handler. -/
def versionsHandler (exec : String → ExecOutcome) : VersionsResponse :=
  let command := "docker images --format \"\x7b\x7b.Tag\x7d\x7d\" timroberton/comb"
  match exec command with
  | .thrown e => .err e
  | .ok r =>
    if r.success = false then .err r.stderr
    else .ok (versionsFromStdout r.stdout)

/- ### Backup download endpoints -/

/-- A filesystem / child-process effect performed by a download handler. -/
inductive FsOp where
  | stat (path : String)
  | readFile (path : String)
  | spawnTar (path : String)
deriving DecidableEq

/-- Result of `Deno.stat` on a path: a directory, a file of some size, or
a thrown error (path missing / inaccessible). -/
inductive StatResult where
  | dir
  | file (size : Nat)
  | missing
deriving DecidableEq

/-- Responses of the backup download endpoints. -/
inductive DlResponse where
  /-- 400 with `{error: "Invalid path"}` -/
  | invalidPath
  /-- 404 with `{error}` -/
  | notFoundMsg (e : String)
  /-- 500 with `{error}` -/
  | failed (e : String)
  /-- 200 attachment -/
  | attachment (filename content : String)
deriving DecidableEq

/-- The `GET /api/servers/:id/backups/:folder/download-all` handler.
`tar` is the oracle for spawning `tar -czf - -C <path> .`. -/
def downloadAllHandler (serverId folder : String) (stat : String → StatResult)
    (tar : String → Int × String × String) : DlResponse × List FsOp :=
  if jsIncludes folder ".." || jsIncludes folder "/" then (.invalidPath, [])
  else
    let backupPath := "/mnt/fastr-backups/" ++ serverId ++ "/" ++ folder
    match stat backupPath with
    | .missing => (.failed "Failed to download backup", [.stat backupPath])
    | .file _ => (.notFoundMsg "Backup folder not found", [.stat backupPath])
    | .dir =>
      let (code, stdout, _stderr) := tar backupPath
      if code ≠ 0 then (.failed "Failed to create archive", [.stat backupPath, .spawnTar backupPath])
      else (.attachment (serverId ++ "_" ++ folder ++ ".tar.gz") stdout,
            [.stat backupPath, .spawnTar backupPath])

/-- The `GET /api/servers/:id/backups/:folder/:file` handler. `readOracle`
gives the content returned by `Deno.readFile` on a path. -/
def downloadFileHandler (serverId folder file : String) (stat : String → StatResult)
    (readOracle : String → String) : DlResponse × List FsOp :=
  if jsIncludes folder ".." || jsIncludes file ".." ||
     jsIncludes folder "/" || jsIncludes file "/" then (.invalidPath, [])
  else
    let filePath := "/mnt/fastr-backups/" ++ serverId ++ "/" ++ folder ++ "/" ++ file
    match stat filePath with
    | .missing => (.notFoundMsg "File not found", [.stat filePath])
    | .dir => (.notFoundMsg "File not found", [.stat filePath])
    | .file _ => (.attachment file (readOracle filePath), [.stat filePath, .readFile filePath])

/- ## Frontend orchestration (`frontend/App.tsx`)

The orchestration functions are modelled as pure functions from their
inputs (the current value of the `sshOperationInProgress` signal, and
oracles for the HTTP requests they make) to the ordered trace of observable
actions they perform: signal writes, HTTP requests, alerts, timed waits. -/

/-- The `ServerRestartStatus` union type of `App.tsx`. -/
inductive ServerRestartStatus where
  | idle
  | pending
  | online
deriving DecidableEq

/-- The `ServerLogs` interface of `App.tsx`. -/
structure ServerLogs where
  success : Bool
  logs : String
  error : String
deriving DecidableEq

/-- Outcome of one `fetchServerLogs` call as seen by `checkLogs`: either a
resolved value (`none` models the `null` that `fetchServerLogs` itself
returns on transport errors or non-OK responses), or an exception reaching
the `catch` branch of `checkLogs`. -/
inductive FetchOutcome where
  | result (r : Option ServerLogs)
  | thrown
deriving DecidableEq

/-- The startup marker tested by `pollServerLogsForStartup`. -/
def startupMarker : String := "Listening on http://0.0.0.0:8000/"

/-- The test `result?.success && result.logs.includes(marker)`. -/
def logsIndicateStartup : Option ServerLogs → Bool
  | some sl => sl.success && jsIncludes sl.logs startupMarker
  | none => false

/-- Whether one fetch outcome is a hit: a thrown fetch never is. -/
def hitAt : FetchOutcome → Bool
  | .result r => logsIndicateStartup r
  | .thrown => false

/-- The recursive `checkLogs` closure of `pollServerLogsForStartup`.
`fetch n` is the outcome of the `n`-th fetch (1-based, the value of
`attempts` after the increment at the top of the body). Returns the boolean
result together with the number of fetch attempts performed. Mirrors the
source: increment `attempts`, fetch; a hit returns `true`; otherwise (also
in the `catch` branch for thrown fetches) return `false` once
`attempts >= maxAttempts`, else wait and recurse. -/
def checkLogs (fetch : Nat → FetchOutcome) (maxAttempts : Nat) (attempts : Nat) : Bool × Nat :=
  match fetch (attempts + 1) with
  | .result r =>
    if logsIndicateStartup r then (true, attempts + 1)
    else if _h : attempts + 1 ≥ maxAttempts then (false, attempts + 1)
    else checkLogs fetch maxAttempts (attempts + 1)
  | .thrown =>
    if _h : attempts + 1 ≥ maxAttempts then (false, attempts + 1)
    else checkLogs fetch maxAttempts (attempts + 1)
termination_by maxAttempts - attempts
decreasing_by all_goals omega

/-- `pollServerLogsForStartup`: `maxAttempts = 400`, `attempts = 0`. -/
def pollServerLogsForStartup (fetch : Nat → FetchOutcome) : Bool × Nat :=
  checkLogs fetch 400 0

/-- The cached inventory record of `App.tsx` (`Server` interface); only
the fields read or written by the orchestration code are retained, the
remaining fields are presentational and never touched by it. -/
structure FrontServer where
  id : String
  serverVersion : String
deriving DecidableEq

/-- The optimistic cache mutation performed by `updateServerVersion` on
success: `servers.map(s => s.id === serverId ? {...s, serverVersion} : s)`. -/
def applyVersionMutation (servers : List FrontServer) (serverId version : String) :
    List FrontServer :=
  servers.map (fun server =>
    if server.id == serverId then { server with serverVersion := version } else server)

/-- Outcome of an orchestration HTTP POST (`/update` or `/restart`) as seen
by the caller: the parsed JSON body, or a thrown error. -/
inductive ApiOutcome where
  | result (success : Bool) (error : String)
  | thrown (e : String)
deriving DecidableEq

/-- One observable action of the orchestration layer, in program order. -/
inductive FrontEvent where
  | setInProgress (b : Bool)
  | setUpdatingId (v : Option String)
  | setRestartingId (v : Option String)
  | setRestartStatus (id : String) (s : ServerRestartStatus)
  | apiUpdate (id version : String)
  | apiRestart (id : String)
  | pollLogs (id : String) (isOnline : Bool) (attemptsUsed : Nat)
  | mutateServers (servers : List FrontServer)
  | delayMs (n : Nat)
  | alertMsg (m : String)
  | refetchStatuses
deriving DecidableEq

/-- `restartServer` of `App.tsx`. `inProgress` is the value of the
`sshOperationInProgress` signal when the guard at the top reads it; `api`
is the outcome of the POST to `/api/servers/:id/restart`; `fetch` feeds the
readiness poller. Returns the trace of actions performed. -/
def restartServer (ServerId : String) (inProgress : Bool) (api : ApiOutcome)
    (fetch : Nat → FetchOutcome) : List FrontEvent :=
  if inProgress then []
  else
    [.setInProgress true, .setRestartingId (some ServerId),
     .setRestartStatus ServerId .pending, .apiRestart ServerId] ++
    (match api with
     | .result success err =>
       if success then
         match pollServerLogsForStartup fetch with
         | (isOnline, n) =>
           .pollLogs ServerId isOnline n ::
           (if isOnline then
              [.setRestartStatus ServerId .online,
               .alertMsg ("Server " ++ ServerId ++ " restarted successfully and is now online."),
               .refetchStatuses]
            else
              [.setRestartStatus ServerId .idle,
               .alertMsg ("Server " ++ ServerId ++
                 " restart command sent, but failed to detect online status.")])
       else
         [.setRestartStatus ServerId .idle,
          .alertMsg ("Failed to restart server " ++ ServerId ++ ": " ++ err)]
     | .thrown e =>
       [.setRestartStatus ServerId .idle,
        .alertMsg ("Error restarting server " ++ ServerId ++ ": " ++ e)]) ++
    [.setRestartingId none, .setInProgress false]

/-- `updateServerVersion` of `App.tsx`. `inProgress` is the signal value at
the guard; `servers` is the current cached inventory (`servers()`, `none`
when the resource has not loaded); `updateApi` is the outcome of the POST
to `/update`. On success the source then calls `restartServer`, which reads
the `sshOperationInProgress` signal again: that value is still `true`
(set at entry, only cleared in the `finally` block), so the nested call is
passed `true`. -/
def updateServerVersion (serverId version : String) (inProgress : Bool)
    (servers : Option (List FrontServer)) (updateApi : ApiOutcome)
    (restartApi : ApiOutcome) (fetch : Nat → FetchOutcome) : List FrontEvent :=
  if inProgress then []
  else
    [.setInProgress true, .setUpdatingId (some serverId), .apiUpdate serverId version] ++
    (match updateApi with
     | .result success err =>
       if success then
         [.alertMsg (serverId ++ " Server updated successfully to version " ++ version ++ ".")] ++
         (match servers with
          | some currentServers =>
            [.mutateServers (applyVersionMutation currentServers serverId version)]
          | none => []) ++
         [.delayMs 1000] ++
         restartServer serverId true restartApi fetch
       else
         [.alertMsg ("Error: " ++ err)]
     | .thrown e =>
       [.alertMsg ("Failed to update server: " ++ e)]) ++
    [.setUpdatingId none, .setInProgress false]

/-- The last lifecycle status assigned to `id` in a trace, if any. -/
def lastStatus (id : String) (tr : List FrontEvent) : Option ServerRestartStatus :=
  (tr.filterMap (fun e =>
    match e with
    | .setRestartStatus i s => if i = id then some s else none
    | _ => none)).getLast?

/- ## Spec-side definitions

These definitions render the vocabulary of the specification (well-formed
semantic versions, the newest-first order, the maximum minor version) and
trace predicates used to state the claims. -/

/-- A nonempty decimal digit string. -/
def isDigits (s : String) : Bool :=
  !s.toList.isEmpty && s.toList.all (·.isDigit)

/-- A well-formed version string: exactly three dot-separated nonempty
numeric components. -/
def wellFormedVersion (s : String) : Bool :=
  match jsSplit s "." with
  | [p0, p1, p2] => isDigits p0 && isDigits p1 && isDigits p2
  | _ => false

/-- The numeric triple (major, minor, patch) of a version string. -/
def specTriple (s : String) : Nat × Nat × Nat :=
  match jsSplit s "." with
  | p0 :: p1 :: p2 :: _ => (digitsVal p0.toList, digitsVal p1.toList, digitsVal p2.toList)
  | _ => (0, 0, 0)

/-- The minor (middle) version component. -/
def specMinor (s : String) : Nat := (specTriple s).2.1

/-- The maximum minor version among a list of version strings (0 for an
empty list, where the claim is vacuous). -/
def specMaxMinor (tags : List String) : Nat :=
  tags.foldl (fun acc t => max acc (specMinor t)) 0

/-- Lexicographic order on numeric version triples. -/
def tripleLe : Nat × Nat × Nat → Nat × Nat × Nat → Prop
  | (a0, a1, a2), (b0, b1, b2) =>
    a0 < b0 ∨ (a0 = b0 ∧ (a1 < b1 ∨ (a1 = b1 ∧ a2 ≤ b2)))

/-- Newest-first order on version strings: `a` is at least as new as `b`
under semantic version comparison of the three numeric components. -/
def specNewestFirst (a b : String) : Prop := tripleLe (specTriple b) (specTriple a)

/-- A trace resolves the lifecycle status of `id` to `idle` or `online`
before the orchestration slot is released: some terminal status assignment
is `idle` or `online`, no later status assignment for `id` follows it, and
the release of the slot comes after it. -/
def resolvedBeforeRelease (id : String) (tr : List FrontEvent) : Prop :=
  ∃ pre s post,
    tr = pre ++ FrontEvent.setRestartStatus id s :: post ∧
    (s = .idle ∨ s = .online) ∧
    (∀ s', FrontEvent.setRestartStatus id s' ∉ post) ∧
    FrontEvent.setInProgress false ∈ post

/-- A trace acquires the exclusivity guard as its first action, releases it
as its last action, and never touches it in between. -/
def acquiresAndReleases (tr : List FrontEvent) : Prop :=
  ∃ mid, tr = FrontEvent.setInProgress true :: (mid ++ [FrontEvent.setInProgress false]) ∧
    ∀ b, FrontEvent.setInProgress b ∉ mid

/-- The command sent by the `GET /api/versions` handler. -/
def dockerImagesCommand : String :=
  "docker images --format \"\x7b\x7b.Tag\x7d\x7d\" timroberton/comb"

/- ## General lemmas -/

lemma checkLogs_exhausts_aux (fetch : Nat → FetchOutcome) (maxAttempts : Nat)
    (hmiss : ∀ n, hitAt (fetch n) = false) :
    ∀ k attempts, maxAttempts - attempts ≤ k → attempts < maxAttempts →
      checkLogs fetch maxAttempts attempts = (false, maxAttempts) := by
  intro k
  induction k with
  | zero => intro attempts h1 h2; omega
  | succ k ih =>
    intro attempts h1 h2
    rw [checkLogs]
    cases hf : fetch (attempts + 1) with
    | result r =>
      have hr : logsIndicateStartup r = false := by
        have := hmiss (attempts + 1); rw [hf] at this; exact this
      dsimp only
      rw [hr]
      simp only [Bool.false_eq_true, if_false]
      by_cases hge : attempts + 1 ≥ maxAttempts
      · rw [dif_pos hge]
        have : attempts + 1 = maxAttempts := by omega
        rw [this]
      · rw [dif_neg hge]
        exact ih (attempts + 1) (by omega) (by omega)
    | thrown =>
      dsimp only
      by_cases hge : attempts + 1 ≥ maxAttempts
      · rw [dif_pos hge]
        have : attempts + 1 = maxAttempts := by omega
        rw [this]
      · rw [dif_neg hge]
        exact ih (attempts + 1) (by omega) (by omega)

lemma checkLogs_first_hit (fetch : Nat → FetchOutcome) (maxAttempts attempts : Nat)
    (hhit : hitAt (fetch (attempts + 1)) = true) :
    checkLogs fetch maxAttempts attempts = (true, attempts + 1) := by
  rw [checkLogs]
  cases hf : fetch (attempts + 1) with
  | result r =>
    have hr : logsIndicateStartup r = true := by
      rw [hf] at hhit; exact hhit
    dsimp only
    rw [hr]
    simp
  | thrown => rw [hf] at hhit; exact absurd hhit (by simp [hitAt])

lemma restartServer_shape (id : String) (api : ApiOutcome) (fetch : Nat → FetchOutcome) :
    ∃ P s T,
      restartServer id false api fetch =
        [.setInProgress true, .setRestartingId (some id),
         .setRestartStatus id .pending, .apiRestart id] ++ P ++
        (.setRestartStatus id s :: T) ++ [.setRestartingId none, .setInProgress false] ∧
      (s = .idle ∨ s = .online) ∧
      (∀ i s', FrontEvent.setRestartStatus i s' ∉ P) ∧
      (∀ b, FrontEvent.setInProgress b ∉ P) ∧
      (∀ i s', FrontEvent.setRestartStatus i s' ∉ T) ∧
      (∀ b, FrontEvent.setInProgress b ∉ T) := by
  cases api with
  | thrown e =>
    exact ⟨[], .idle, [.alertMsg ("Error restarting server " ++ id ++ ": " ++ e)],
      by simp [restartServer], Or.inl rfl, by simp, by simp, by simp, by simp⟩
  | result success err =>
    cases success with
    | false =>
      exact ⟨[], .idle, [.alertMsg ("Failed to restart server " ++ id ++ ": " ++ err)],
        by simp [restartServer], Or.inl rfl, by simp, by simp, by simp, by simp⟩
    | true =>
      cases hpoll : pollServerLogsForStartup fetch with
      | mk isOnline n =>
        cases isOnline with
        | false =>
          exact ⟨[.pollLogs id false n], .idle,
            [.alertMsg ("Server " ++ id ++ " restart command sent, but failed to detect online status.")],
            by simp [restartServer, hpoll], Or.inl rfl, by simp, by simp, by simp, by simp⟩
        | true =>
          exact ⟨[.pollLogs id true n], .online,
            [.alertMsg ("Server " ++ id ++ " restarted successfully and is now online."),
             .refetchStatuses],
            by simp [restartServer, hpoll], Or.inr rfl, by simp, by simp, by simp, by simp⟩

lemma not_ws_of_digit (c : Char) (h : c.isDigit = true) : isJsWs c = false := by
  cases hw : isJsWs c
  · rfl
  · exfalso
    rw [isJsWs] at hw
    simp only [Bool.or_eq_true, decide_eq_true_eq] at hw
    rcases hw with ((((rfl | rfl) | rfl) | rfl) | rfl) | rfl <;> exact absurd h (by decide)

lemma digit_no_sign (c : Char) (h : c.isDigit = true) : c ≠ '-' ∧ c ≠ '+' := by
  constructor <;> rintro rfl <;> exact absurd h (by decide)

lemma parseIntJS_digits (p : String) (h : isDigits p = true) :
    parseIntJS p = some ((digitsVal p.toList : Int)) := by
  rw [isDigits, Bool.and_eq_true] at h
  obtain ⟨hne, hall⟩ := h
  rcases hl : p.toList with _ | ⟨c, t⟩
  · rw [hl] at hne; simp at hne
  · have hc : c.isDigit = true := by
      rw [hl, List.all_cons, Bool.and_eq_true] at hall; exact hall.1
    obtain ⟨hm, hp⟩ := digit_no_sign c hc
    have htake : (c :: t).takeWhile (·.isDigit) = c :: t := by
      rw [List.takeWhile_eq_self_iff]
      intro x hx
      rw [hl] at hall
      exact List.all_eq_true.mp hall x hx
    have hd : p.data = c :: t := hl
    simp [parseIntJS, hd, List.dropWhile_cons, not_ws_of_digit c hc, hm, hp, htake]

lemma jsNumber_digits (p : String) (h : isDigits p = true) :
    jsNumber p = some ((digitsVal p.toList : Int)) := by
  rw [isDigits, Bool.and_eq_true] at h
  obtain ⟨hne, hall⟩ := h
  rcases hl : p.toList with _ | ⟨c, t⟩
  · rw [hl] at hne; simp at hne
  · have hc : c.isDigit = true := by
      rw [hl, List.all_cons, Bool.and_eq_true] at hall; exact hall.1
    obtain ⟨hm, hp⟩ := digit_no_sign c hc
    have hall2 : (c :: t).all (·.isDigit) = true := by rw [← hl]; exact hall
    have hd : p.data = c :: t := hl
    simp only [List.all_eq_true] at hall2
    simp [jsNumber, hd, hm, hp, hall2]
    intro x hx
    exact hall2 x (List.mem_cons_of_mem c hx)

lemma wellFormed_parts (t : String) (h : wellFormedVersion t = true) :
    ∃ p0 p1 p2, jsSplit t "." = [p0, p1, p2] ∧
      isDigits p0 = true ∧ isDigits p1 = true ∧ isDigits p2 = true := by
  rw [wellFormedVersion] at h
  rcases hl : jsSplit t "." with _ | ⟨p0, _ | ⟨p1, _ | ⟨p2, _ | ⟨p3, rest⟩⟩⟩⟩ <;> rw [hl] at h
  · exact absurd h (by simp)
  · exact absurd h (by simp)
  · exact absurd h (by simp)
  · simp only [Bool.and_eq_true] at h
    exact ⟨p0, p1, p2, rfl, h.1.1, h.1.2, h.2⟩
  · exact absurd h (by simp)

lemma versionNums_wf (t : String) (h : wellFormedVersion t = true) :
    ∃ a0 a1 a2 : Nat, specTriple t = (a0, a1, a2) ∧
      versionNums t = [some ((a0 : Int)), some ((a1 : Int)), some ((a2 : Int))] := by
  obtain ⟨p0, p1, p2, hl, h0, h1, h2⟩ := wellFormed_parts t h
  refine ⟨digitsVal p0.toList, digitsVal p1.toList, digitsVal p2.toList, ?_, ?_⟩
  · rw [specTriple, hl]
  · rw [versionNums, hl]
    simp [jsNumber_digits _ h0, jsNumber_digits _ h1, jsNumber_digits _ h2]

lemma versionCmp_wf (a b : String) (ha : wellFormedVersion a = true)
    (hb : wellFormedVersion b = true) :
    (versionCmp a b ≤ 0) ↔ specNewestFirst a b := by
  obtain ⟨x0, x1, x2, hta, hva⟩ := versionNums_wf a ha
  obtain ⟨y0, y1, y2, htb, hvb⟩ := versionNums_wf b hb
  have key : versionCmp a b =
      (if (y0 : Int) ≠ (x0 : Int) then (y0 : Int) - (x0 : Int)
       else if (y1 : Int) ≠ (x1 : Int) then (y1 : Int) - (x1 : Int)
       else if (y2 : Int) ≠ (x2 : Int) then (y2 : Int) - (x2 : Int)
       else 0) := by
    simp only [versionCmp, hva, hvb]
    by_cases e0 : (y0 : Int) = (x0 : Int) <;> by_cases e1 : (y1 : Int) = (x1 : Int) <;>
      by_cases e2 : (y2 : Int) = (x2 : Int) <;>
      simp [jsStrictNe, jsDiff, e0, e1, e2, Option.orElse]
  rw [key, specNewestFirst, hta, htb]
  simp only [tripleLe]
  split_ifs with i0 i1 i2 <;> omega

lemma tripleLe_total (u v : Nat × Nat × Nat) : tripleLe u v ∨ tripleLe v u := by
  obtain ⟨u0, u1, u2⟩ := u
  obtain ⟨v0, v1, v2⟩ := v
  simp only [tripleLe]
  omega

lemma tripleLe_trans (u v w : Nat × Nat × Nat) (h1 : tripleLe u v) (h2 : tripleLe v w) :
    tripleLe u w := by
  obtain ⟨u0, u1, u2⟩ := u
  obtain ⟨v0, v1, v2⟩ := v
  obtain ⟨w0, w1, w2⟩ := w
  simp only [tripleLe] at h1 h2 ⊢
  omega

lemma highestMinor_loop (l : List String) : ∀ (acc : Int), (∀ t ∈ l, wellFormedVersion t = true) →
    List.foldl (fun acc version =>
      let parts := jsSplit version "."
      if parts.length ≥ 2 then
        match parseIntJS (parts.getD 1 "") with
        | some minor => if minor > acc then minor else acc
        | none => acc
      else acc) acc l
    = List.foldl (fun acc t => max acc ((specMinor t : Int))) acc l := by
  induction l with
  | nil => intro acc _; rfl
  | cons t rest ih =>
    intro acc h
    have ht := h t (by simp)
    obtain ⟨p0, p1, p2, hl, _h0, h1, _h2⟩ := wellFormed_parts t ht
    have hmin : specMinor t = digitsVal p1.toList := by rw [specMinor, specTriple, hl]
    simp only [List.foldl_cons]
    rw [ih _ (fun x hx => h x (List.mem_cons_of_mem _ hx))]
    congr 1
    dsimp only
    rw [hl]
    simp only [List.length_cons, List.length_nil, List.getD, List.get?_cons_succ,
      List.get?_cons_zero, Option.getD_some]
    rw [if_pos (by omega), parseIntJS_digits _ h1, hmin]
    dsimp only
    split <;> omega

lemma highestMinor_wf (tags : List String) (hwf : ∀ t ∈ tags, wellFormedVersion t = true)
    (hne : tags ≠ []) : highestMinor tags = ((specMaxMinor tags : Nat) : Int) := by
  have cast_fold : ∀ (l : List String) (a : Nat),
      List.foldl (fun acc t => max acc ((specMinor t : Int))) ((a : Nat) : Int) l =
      ((List.foldl (fun acc t => max acc (specMinor t)) a l : Nat) : Int) := by
    intro l
    induction l with
    | nil => intro a; rfl
    | cons t rest ih =>
      intro a
      simp only [List.foldl_cons]
      rw [← Nat.cast_max, ih]
  rw [highestMinor, highestMinor_loop tags (-1) hwf]
  cases tags with
  | nil => exact absurd rfl hne
  | cons t rest =>
    rw [specMaxMinor]
    simp only [List.foldl_cons]
    have e1 : max (-1 : Int) ((specMinor t : Nat) : Int) = ((specMinor t : Nat) : Int) := by omega
    have e2 : max 0 (specMinor t) = specMinor t := by omega
    rw [e1, e2, cast_fold]

lemma filter_wf_eq (tags : List String) (hwf : ∀ t ∈ tags, wellFormedVersion t = true) :
    tags.filter (fun version =>
      let parts := jsSplit version "."
      decide (parts.length ≥ 2) &&
        (match parseIntJS (parts.getD 1 "") with
         | some m => m == highestMinor tags
         | none => false)) =
    tags.filter (fun t => specMinor t == specMaxMinor tags) := by
  apply List.filter_congr
  intro t ht
  have hne : tags ≠ [] := by rintro rfl; simp at ht
  have hwt := hwf t ht
  obtain ⟨p0, p1, p2, hl, _h0, h1, _h2⟩ := wellFormed_parts t hwt
  have hmin : specMinor t = digitsVal p1.toList := by rw [specMinor, specTriple, hl]
  dsimp only
  rw [hl]
  simp only [List.length_cons, List.length_nil, List.getD, List.get?_cons_succ,
    List.get?_cons_zero, Option.getD_some]
  rw [parseIntJS_digits _ h1, highestMinor_wf tags hwf hne]
  simp only [ge_iff_le, decide_eq_true_eq]
  rw [← hmin]
  simp [beq_iff_eq]

lemma sorted_orderedInsert_wf {α : Type} (rc : α → α → Prop) [DecidableRel rc]
    (rs : α → α → Prop) (P : α → Prop)
    (h1 : ∀ a b, P a → P b → rc a b → rs a b)
    (h2 : ∀ a b, P a → P b → ¬ rc a b → rs b a)
    (htrans : ∀ a b c, P a → P b → P c → rs a b → rs b c → rs a c) :
    ∀ (l : List α) (a : α), P a → (∀ x ∈ l, P x) → l.Sorted rs →
      (List.orderedInsert rc a l).Sorted rs := by
  intro l
  induction l with
  | nil =>
    intro a _ _ _
    simp [List.orderedInsert]
  | cons b t ih =>
    intro a hPa hPl hsort
    rw [List.orderedInsert]
    by_cases hc : rc a b
    · rw [if_pos hc]
      rw [List.sorted_cons]
      refine ⟨?_, hsort⟩
      intro y hy
      rcases List.mem_cons.mp hy with rfl | hyt
      · exact h1 a y hPa (hPl y (by simp)) hc
      · have hab : rs a b := h1 a b hPa (hPl b (by simp)) hc
        have hby : rs b y := (List.sorted_cons.mp hsort).1 y hyt
        exact htrans a b y hPa (hPl b (by simp)) (hPl y (by simp [hyt])) hab hby
    · rw [if_neg hc]
      rw [List.sorted_cons]
      obtain ⟨hbt, hst⟩ := List.sorted_cons.mp hsort
      refine ⟨?_, ih a hPa (fun x hx => hPl x (by simp [hx])) hst⟩
      intro y hy
      rcases (List.mem_orderedInsert rc).mp hy with rfl | hyt
      · exact h2 y b hPa (hPl b (by simp)) hc
      · exact hbt y hyt

lemma sorted_insertionSort_wf {α : Type} (rc : α → α → Prop) [DecidableRel rc]
    (rs : α → α → Prop) (P : α → Prop)
    (h1 : ∀ a b, P a → P b → rc a b → rs a b)
    (h2 : ∀ a b, P a → P b → ¬ rc a b → rs b a)
    (htrans : ∀ a b c, P a → P b → P c → rs a b → rs b c → rs a c) :
    ∀ l, (∀ x ∈ l, P x) → (List.insertionSort rc l).Sorted rs := by
  intro l
  induction l with
  | nil => intro _; simp [List.insertionSort]
  | cons a t ih =>
    intro hP
    rw [List.insertionSort]
    apply sorted_orderedInsert_wf rc rs P h1 h2 htrans
    · exact hP a (by simp)
    · intro x hx
      exact hP x (by simp [(List.perm_insertionSort rc t).mem_iff.mp hx])
    · exact ih (fun x hx => hP x (by simp [hx]))

/- ## Claim theorems -/

/-- C1: the claim asserts that in the restart and update handlers every
rendered command is re-validated with `isCommandAllowed` before dispatch
and a failed check prevents `executeCommand` from being reached. The
source has that check commented out in both handlers, so a command that
fails the allow-list is nevertheless dispatched: with inventory containing
the target instance, the update handler renders
`wb c update ghana --server 1; rm -rf /` from a caller-supplied version
string, `isCommandAllowed` rejects it, yet the handler passes it to the
execution channel (and likewise for the restart handler with a hostile
instance identifier). -/
theorem c1_commands_dispatched_without_allowlist_check :
    (isCommandAllowed "wb c update ghana --server 1; rm -rf /" = false ∧
     updateHandler [⟨"ghana"⟩] "ghana" "1; rm -rf /" (fun _ => .ok ⟨true, "", "", 0⟩) =
       (.ok true "" "", ["wb c update ghana --server 1; rm -rf /"])) ∧
    (isCommandAllowed "wb restart ghana; rm -rf /" = false ∧
     restartHandler [⟨"ghana; rm -rf /"⟩] "ghana; rm -rf /" (fun _ => .ok ⟨true, "", "", 0⟩) =
       (.ok true "" "", ["wb restart ghana; rm -rf /"])) := by
  refine ⟨⟨by decide, by decide⟩, ⟨by decide, by decide⟩⟩

/-- C2 counterexample: the claim asserts that a caller attempting an
update or restart while the exclusivity guard is held receives an
immediate Busy rejection and is told to retry. At this concrete input the
guard is held and both orchestration functions return the empty trace: no
alert, no notification of any kind is delivered to the caller — the
attempt is silently dropped, refuting the "told to retry" part of the
claim. -/
theorem c2_busy_attempt_is_silently_dropped :
    updateServerVersion "ghana" "1.6.12" true (some []) (.result true "") (.result true "")
      (fun _ => .thrown) = [] ∧
    restartServer "ghana" true (.result true "") (fun _ => .thrown) = [] :=
  ⟨rfl, rfl⟩

/-- C2 amended: at most one operation is in flight process-wide — a run
started with the guard free first acquires the guard and releases it as
its final action, never touching it in between — and a caller attempting
an update or restart while the guard is held is refused immediately and
silently (the function returns at the guard with no remote command
executed and no notification; the UI communicates business only through
disabled buttons). -/
theorem c2_exclusive_guard_amended (id v : String) (srv : Option (List FrontServer))
    (ua ra : ApiOutcome) (f : Nat → FetchOutcome) :
    (updateServerVersion id v true srv ua ra f = [] ∧ restartServer id true ra f = []) ∧
    acquiresAndReleases (restartServer id false ra f) ∧
    acquiresAndReleases (updateServerVersion id v false srv ua ra f) := by
  refine ⟨⟨rfl, rfl⟩, ?_, ?_⟩
  · obtain ⟨P, s, T, htr, _hs, _hP1, hP2, _hT1, hT2⟩ := restartServer_shape id ra f
    refine ⟨[.setRestartingId (some id), .setRestartStatus id .pending, .apiRestart id] ++ P ++
      FrontEvent.setRestartStatus id s :: T ++ [.setRestartingId none], ?_, ?_⟩
    · rw [htr]; simp
    · intro b
      simp [hP2 b, hT2 b]
  · cases ua with
    | thrown e =>
      refine ⟨[.setUpdatingId (some id), .apiUpdate id v,
        .alertMsg ("Failed to update server: " ++ e), .setUpdatingId none], ?_, ?_⟩
      · simp [updateServerVersion]
      · intro b; simp
    | result success err =>
      cases success with
      | false =>
        refine ⟨[.setUpdatingId (some id), .apiUpdate id v,
          .alertMsg ("Error: " ++ err), .setUpdatingId none], ?_, ?_⟩
        · simp [updateServerVersion]
        · intro b; simp
      | true =>
        cases srv with
        | none =>
          refine ⟨[.setUpdatingId (some id), .apiUpdate id v,
            .alertMsg (id ++ " Server updated successfully to version " ++ v ++ "."),
            .delayMs 1000, .setUpdatingId none], ?_, ?_⟩
          · simp [updateServerVersion, restartServer]
          · intro b; simp
        | some cur =>
          refine ⟨[.setUpdatingId (some id), .apiUpdate id v,
            .alertMsg (id ++ " Server updated successfully to version " ++ v ++ "."),
            .mutateServers (applyVersionMutation cur id v),
            .delayMs 1000, .setUpdatingId none], ?_, ?_⟩
          · simp [updateServerVersion, restartServer]
          · intro b; simp

/-- C3: the claim asserts that a successful `UpdateInstance("ghana",
"1.6.12")` updates the cached record and then triggers exactly one restart
sequence. Evaluating `updateServerVersion` at that input (backend reports
success) shows the cached record is indeed updated to `1.6.12` and the
settling delay occurs, but the trace contains no restart request, no
`pending` status and no polling: the nested `restartServer` call returns
at its own re-entrancy guard because `sshOperationInProgress` is still
`true`, so zero restart sequences are triggered where the source comment
("restart server after update") and the claim expect exactly one. -/
theorem c3_update_success_triggers_no_restart :
    updateServerVersion "ghana" "1.6.12" false (some [⟨"ghana", "1.6.2"⟩])
      (.result true "") (.result true "") (fun _ => .result none) =
    [.setInProgress true, .setUpdatingId (some "ghana"), .apiUpdate "ghana" "1.6.12",
     .alertMsg "ghana Server updated successfully to version 1.6.12.",
     .mutateServers [⟨"ghana", "1.6.12"⟩], .delayMs 1000,
     .setUpdatingId none, .setInProgress false] := by
  decide

/-- C4: the injection attempt `wb c update ghana; rm -rf /` is rejected by
the authorizer because every allow-list rule is an anchored whole-string
match, while the properly terminated command `wb c update ghana ` built
from the same vocabulary is allowed — the rejection is due to the trailing
injected text, not the command family. -/
theorem c4_injection_command_rejected :
    isCommandAllowed "wb c update ghana; rm -rf /" = false ∧
    isCommandAllowed "wb c update ghana " = true := by
  decide

/-- C5: when no fetched log ever contains the startup marker (transport
errors, null results and marker-free logs alike count as misses), the
poller performs exactly `maxAttempts` fetch attempts and returns `false` —
stated for the general budget of the `checkLogs` loop and for the
`maxAttempts = 400` of the source — and the restart orchestration then
sets the lifecycle status of the instance back to `idle`. -/
theorem c5_poller_exhausts_budget_and_reverts_idle (fetch : Nat → FetchOutcome)
    (maxAttempts : Nat) (id e : String) (hmax : 1 ≤ maxAttempts)
    (hmiss : ∀ n, hitAt (fetch n) = false) :
    checkLogs fetch maxAttempts 0 = (false, maxAttempts) ∧
    pollServerLogsForStartup fetch = (false, 400) ∧
    lastStatus id (restartServer id false (.result true e) fetch) = some .idle := by
  have hgen := checkLogs_exhausts_aux fetch maxAttempts hmiss maxAttempts 0 (by omega) (by omega)
  have hpoll : pollServerLogsForStartup fetch = (false, 400) :=
    checkLogs_exhausts_aux fetch 400 hmiss 400 0 (by omega) (by omega)
  refine ⟨hgen, hpoll, ?_⟩
  simp [restartServer, hpoll, lastStatus]

/-- C5 witness: a fetch oracle that always resolves to `null` (the value
`fetchServerLogs` produces on transport failure) never hits the marker;
the theorem applies with the test-mode budget `maxAttempts = 3` and with
the production budget of 400. -/
theorem c5_witness :
    (1 ≤ 3 ∧ ∀ n, hitAt ((fun (_ : Nat) => FetchOutcome.result none) n) = false) ∧
    checkLogs (fun _ => FetchOutcome.result none) 3 0 = (false, 3) ∧
    pollServerLogsForStartup (fun _ => FetchOutcome.result none) = (false, 400) ∧
    lastStatus "ghana" (restartServer "ghana" false (.result true "")
      (fun _ => FetchOutcome.result none)) = some .idle := by
  refine ⟨⟨by decide, fun n => rfl⟩, ?_, ?_, ?_⟩
  · exact (c5_poller_exhausts_budget_and_reverts_idle (fun _ => FetchOutcome.result none)
      3 "ghana" "" (by decide) (fun n => rfl)).1
  · exact (c5_poller_exhausts_budget_and_reverts_idle (fun _ => FetchOutcome.result none)
      3 "ghana" "" (by decide) (fun n => rfl)).2.1
  · exact (c5_poller_exhausts_budget_and_reverts_idle (fun _ => FetchOutcome.result none)
      3 "ghana" "" (by decide) (fun n => rfl)).2.2

/-- C6: when the startup marker is present in the first fetched log, the
poller returns `true` after exactly one fetch attempt, and the restart
orchestration sets the lifecycle status of the instance to `online`. -/
theorem c6_first_fetch_hit_sets_online (fetch : Nat → FetchOutcome) (id e : String)
    (hhit : hitAt (fetch 1) = true) :
    pollServerLogsForStartup fetch = (true, 1) ∧
    lastStatus id (restartServer id false (.result true e) fetch) = some .online := by
  have hpoll : pollServerLogsForStartup fetch = (true, 1) :=
    checkLogs_first_hit fetch 400 0 hhit
  refine ⟨hpoll, ?_⟩
  simp [restartServer, hpoll, lastStatus]

/-- C6 witness: a first fetch whose log is exactly the startup marker. -/
theorem c6_witness :
    (hitAt ((fun (_ : Nat) => FetchOutcome.result (some ⟨true, startupMarker, ""⟩)) 1) = true) ∧
    pollServerLogsForStartup (fun _ => FetchOutcome.result (some ⟨true, startupMarker, ""⟩)) =
      (true, 1) ∧
    lastStatus "ghana" (restartServer "ghana" false (.result true "")
      (fun _ => FetchOutcome.result (some ⟨true, startupMarker, ""⟩))) = some .online := by
  refine ⟨by decide, ?_, ?_⟩
  · exact (c6_first_fetch_hit_sets_online
      (fun _ => FetchOutcome.result (some ⟨true, startupMarker, ""⟩)) "ghana" "" (by decide)).1
  · exact (c6_first_fetch_hit_sets_online
      (fun _ => FetchOutcome.result (some ⟨true, startupMarker, ""⟩)) "ghana" "" (by decide)).2

/-- C7: every execution of the restart sequence — remote command success
with readiness confirmed or unconfirmed, remote command failure, or a
thrown error — resolves the lifecycle status of the instance to `idle` or
`online` before the orchestration slot is released, and the release of the
slot is the final action of the trace on every path. -/
theorem c7_status_resolved_before_slot_release (id : String) (api : ApiOutcome)
    (fetch : Nat → FetchOutcome) :
    resolvedBeforeRelease id (restartServer id false api fetch) ∧
    (restartServer id false api fetch).getLast? = some (.setInProgress false) := by
  obtain ⟨P, s, T, htr, hs, _hP1, _hP2, hT1, _hT2⟩ := restartServer_shape id api fetch
  constructor
  · refine ⟨[.setInProgress true, .setRestartingId (some id),
      .setRestartStatus id .pending, .apiRestart id] ++ P, s,
      T ++ [.setRestartingId none, .setInProgress false], ?_, hs, ?_, ?_⟩
    · rw [htr]; simp
    · intro s' hmem
      rcases List.mem_append.mp hmem with h | h
      · exact hT1 id s' h
      · simp at h
    · simp
  · obtain ⟨Y, hY⟩ : ∃ Y, restartServer id false api fetch = Y ++ [FrontEvent.setInProgress false] :=
      ⟨[.setInProgress true, .setRestartingId (some id),
        .setRestartStatus id .pending, .apiRestart id] ++ P ++
        FrontEvent.setRestartStatus id s :: T ++ [.setRestartingId none],
       by rw [htr]; simp⟩
    rw [hY, List.getLast?_append_of_ne_nil _ (by simp)]
    rfl

/-- C8: for an instance identifier with no matching entry in the fetched
inventory, both the restart handler and the update handler answer 404
`Server not found` and pass no command to the execution channel; the
command string is never rendered on that path. -/
theorem c8_unknown_instance_not_found (servers : List ServerInfo) (serverId version : String)
    (exec : String → ExecOutcome) (h : ∀ s ∈ servers, s.id ≠ serverId) :
    restartHandler servers serverId exec = (.notFound, []) ∧
    updateHandler servers serverId version exec = (.notFound, []) := by
  have hfind : getServerInfo servers serverId = none := by
    rw [getServerInfo, List.find?_eq_none]
    intro s hs
    simpa using h s hs
  constructor
  · rw [restartHandler, hfind]
  · rw [updateHandler, hfind]

/-- C8 witness: an empty inventory knows no instance `ghana`. -/
theorem c8_witness :
    (∀ s ∈ ([] : List ServerInfo), s.id ≠ "ghana") ∧
    restartHandler [] "ghana" (fun _ => .thrown "no") = (.notFound, []) ∧
    updateHandler [] "ghana" "1.6.12" (fun _ => .thrown "no") = (.notFound, []) := by
  refine ⟨by simp, (c8_unknown_instance_not_found [] "ghana" "1.6.12" _ (by simp)).1,
    (c8_unknown_instance_not_found [] "ghana" "1.6.12" _ (by simp)).2⟩

/-- C9: when the remote image-tag listing succeeds and every extracted tag
is a well-formed three-component numeric version, the versions handler
returns 200 with the pipeline output, which consists of exactly those
stripped tags whose minor component equals the maximum minor among all
extracted tags (a permutation of that filtered list), sorted newest-first
by semantic version comparison of the three numeric components. -/
theorem c9_version_catalog_filter_sort (exec : String → ExecOutcome) (r : CommandResult)
    (hexec : exec dockerImagesCommand = .ok r) (hsucc : r.success = true)
    (hwf : ∀ t ∈ parseVersionTags r.stdout, wellFormedVersion t = true) :
    versionsHandler exec = .ok (versionsFromStdout r.stdout) ∧
    (versionsFromStdout r.stdout).Perm ((parseVersionTags r.stdout).filter
      (fun t => specMinor t == specMaxMinor (parseVersionTags r.stdout))) ∧
    (versionsFromStdout r.stdout).Sorted specNewestFirst := by
  rw [dockerImagesCommand] at hexec
  have hP : ∀ x ∈ (parseVersionTags r.stdout).filter (fun version =>
      let parts := jsSplit version "."
      decide (parts.length ≥ 2) &&
        (match parseIntJS (parts.getD 1 "") with
         | some m => m == highestMinor (parseVersionTags r.stdout)
         | none => false)), wellFormedVersion x = true := by
    intro x hx
    exact hwf x (List.mem_of_mem_filter hx)
  refine ⟨?_, ?_, ?_⟩
  · rw [versionsHandler, hexec]
    dsimp only
    rw [hsucc]
    simp
  · rw [versionsFromStdout]
    dsimp only
    exact (List.perm_insertionSort _ _).trans (by rw [filter_wf_eq _ hwf])
  · rw [versionsFromStdout]
    dsimp only
    apply sorted_insertionSort_wf (fun a b => versionCmp a b ≤ 0) specNewestFirst
      (fun t => wellFormedVersion t = true)
    · intro a b hPa hPb hrc
      exact (versionCmp_wf a b hPa hPb).mp hrc
    · intro a b hPa hPb hnrc
      have hns : ¬ specNewestFirst a b := fun hs => hnrc ((versionCmp_wf a b hPa hPb).mpr hs)
      rcases tripleLe_total (specTriple a) (specTriple b) with h | h
      · exact h
      · exact absurd h hns
    · intro a b c _ _ _ hab hbc
      exact tripleLe_trans _ _ _ hbc hab
    · exact hP

/-- C9 witness: a listing with two matching tags (`1.6.12`, `1.6.2`) and
one non-matching line; the handler hypotheses hold and the theorem
applies. -/
theorem c9_witness :
    ((fun (_ : String) =>
        ExecOutcome.ok ⟨true, "wb-fastr-server-v1.6.12\nwb-fastr-server-v1.6.2\nother", "", 0⟩)
        dockerImagesCommand =
      .ok ⟨true, "wb-fastr-server-v1.6.12\nwb-fastr-server-v1.6.2\nother", "", 0⟩) ∧
    (∀ t ∈ parseVersionTags "wb-fastr-server-v1.6.12\nwb-fastr-server-v1.6.2\nother",
      wellFormedVersion t = true) ∧
    versionsHandler (fun _ =>
        ExecOutcome.ok ⟨true, "wb-fastr-server-v1.6.12\nwb-fastr-server-v1.6.2\nother", "", 0⟩) =
      .ok (versionsFromStdout "wb-fastr-server-v1.6.12\nwb-fastr-server-v1.6.2\nother") := by
  refine ⟨rfl, by decide, ?_⟩
  exact (c9_version_catalog_filter_sort _
    ⟨true, "wb-fastr-server-v1.6.12\nwb-fastr-server-v1.6.2\nother", "", 0⟩
    rfl rfl (by decide)).1

/-- C10: when the folder parameter or the file parameter contains `..` or
`/`, the backup download endpoints answer 400 `Invalid path` and perform
no filesystem access at all (no stat, no read, no archiver spawn); the
single-file endpoint checks both parameters, the whole-folder endpoint its
only path parameter, `folder`. -/
theorem c10_traversal_guard_rejects (serverId folder file : String)
    (stat : String → StatResult) (tar : String → Int × String × String)
    (readOracle : String → String)
    (h : jsIncludes folder ".." = true ∨ jsIncludes file ".." = true ∨
         jsIncludes folder "/" = true ∨ jsIncludes file "/" = true) :
    downloadFileHandler serverId folder file stat readOracle = (.invalidPath, []) ∧
    (jsIncludes folder ".." = true ∨ jsIncludes folder "/" = true →
      downloadAllHandler serverId folder stat tar = (.invalidPath, [])) := by
  constructor
  · rw [downloadFileHandler]
    rcases h with h | h | h | h <;> simp [h]
  · intro h2
    rw [downloadAllHandler]
    rcases h2 with h2 | h2 <;> simp [h2]

/-- C10 witness: a folder parameter `..` triggers the guard on both
endpoints. -/
theorem c10_witness :
    (jsIncludes ".." ".." = true ∨ jsIncludes "x" ".." = true ∨
     jsIncludes ".." "/" = true ∨ jsIncludes "x" "/" = true) ∧
    downloadFileHandler "ghana" ".." "x" (fun _ => .dir) (fun _ => "") = (.invalidPath, []) ∧
    (jsIncludes ".." ".." = true ∨ jsIncludes ".." "/" = true →
      downloadAllHandler "ghana" ".." (fun _ => .dir) (fun _ => (0, "", "")) = (.invalidPath, [])) := by
  refine ⟨Or.inl (by decide), ?_, ?_⟩
  · exact (c10_traversal_guard_rejects "ghana" ".." "x" (fun _ => .dir) (fun _ => (0, "", ""))
      (fun _ => "") (Or.inl (by decide))).1
  · exact (c10_traversal_guard_rejects "ghana" ".." "x" (fun _ => .dir) (fun _ => (0, "", ""))
      (fun _ => "") (Or.inl (by decide))).2
